import Mathlib

/-!
# Verification of the datastream decompose/compose core (src/DS/ids.c)

Shallow embedding of the SCAP source-datastream splitter and composer.
An XML document is a finite tree of element and non-element nodes;
attribute values and paths are character lists (C strings without NUL).
The filesystem and the error sink are modelled as an event trace: the
functions of ids.c return the ordered list of files written, directories
created and errors raised.  The unbounded catalog recursion of
`ds_ids_dump_component_ref_as` is rendered with an explicit recursion-depth
budget (`fuel`); exhausting the budget is a distinguished outcome, so that
"the recursion exceeds every depth bound" expresses nontermination.
Reads of an `id` attribute that the C code passes to `strcmp` without a
null check are rendered as a distinguished undefined-behaviour outcome.
The XML parser/serializer library is the external collaborator of the
spec; a dumped file's recorded content is the payload subtree itself
(clone plus namespace reconciliation preserve tree equality up to
namespace normalization, which this model does not track).
-/

/-- An XML node: an element with a name, ordered attributes and ordered
children, or a non-element node (text, comment, ...). -/
inductive XNode where
  | elem (name : List Char) (attrs : List (List Char × List Char)) (children : List XNode) : XNode
  | text (content : List Char) : XNode

/-- Character list of a string literal. -/
def chars (s : String) : List Char := s.data

/-- Child list of a node (`node->children`; non-elements have none here). -/
def XNode.children : XNode → List XNode
  | .elem _ _ c => c
  | .text _ => []

/-- Attribute lookup, `xmlGetProp`: `none` models a NULL return. -/
def xmlGetProp (n : XNode) (key : List Char) : Option (List Char) :=
  match n with
  | .text _ => none
  | .elem _ attrs _ => (attrs.find? (fun a => a.1 = key)).map (fun a => a.2)

/-- Whether a node is an element of the given name. -/
def isElemNamed (n : XNode) (nm : List Char) : Bool :=
  match n with
  | .elem s _ _ => s = nm
  | .text _ => false

/-- Loop body of `node_get_child_element`: first element child, restricted
to a given name when one is supplied (NULL name in C = `none`). -/
def firstChildElem : List XNode → Option (List Char) → Option XNode
  | [], _ => none
  | XNode.text _ :: rest, nm => firstChildElem rest nm
  | XNode.elem s a c :: rest, nm =>
    match nm with
    | none => some (XNode.elem s a c)
    | some target =>
      if s = target then some (XNode.elem s a c) else firstChildElem rest nm

/-- `node_get_child_element(parent, name)` from ids.c. -/
def node_get_child_element (parent : XNode) (name : Option (List Char)) : Option XNode :=
  firstChildElem parent.children name

/-- Events a run of the decomposer/composer core emits: a file written
with a tree as content (`xmlSaveFileEnc`), a directory created (`mkdir`),
an error raised (`oscap_seterr`). -/
inductive Ev where
  | write (path : List Char) (content : XNode) : Ev
  | mkdir (path : List Char) : Ev
  | err (msg : List Char) : Ev

/-- Outcome of a run: normal completion, undefined behaviour reached
(a NULL attribute value passed to `strcmp`), or recursion-depth budget
exhausted; each carries the events emitted before that point. -/
inductive Out where
  | done (evs : List Ev) : Out
  | ub (evs : List Ev) : Out
  | nofuel (evs : List Ev) : Out

/-- Events of an outcome. -/
def Out.evs : Out → List Ev
  | .done e => e
  | .ub e => e
  | .nofuel e => e

/-- Prepend already-emitted events to an outcome. -/
def Out.push (pre : List Ev) : Out → Out
  | .done e => .done (pre ++ e)
  | .ub e => .ub (pre ++ e)
  | .nofuel e => .nofuel (pre ++ e)

/-- Sequential composition: the second computation runs only if the first
completed normally. -/
def Out.seq : Out → Out → Out
  | .done e, o => Out.push e o
  | .ub e, _ => .ub e
  | .nofuel e, _ => .nofuel e

/-- Whether the outcome is fuel exhaustion. -/
def Out.isNofuel : Out → Bool
  | .nofuel _ => true
  | _ => false

/-- The files written in an event list, in order. -/
def evWrites (evs : List Ev) : List (List Char × XNode) :=
  evs.filterMap (fun e => match e with
    | .write p c => some (p, c)
    | _ => none)

/-- The error messages in an event list, in order. -/
def evErrs (evs : List Ev) : List (List Char) :=
  evs.filterMap (fun e => match e with
    | .err m => some m
    | _ => none)

/-- The directories created in an event list, in order. -/
def evMkdirs (evs : List Ev) : List (List Char) :=
  evs.filterMap (fun e => match e with
    | .mkdir p => some p
    | _ => none)

/-- Files written by a run. -/
def writesOf (o : Out) : List (List Char × XNode) := evWrites o.evs

/-- Errors raised by a run. -/
def errsOf (o : Out) : List (List Char) := evErrs o.evs

/-- Directories created by a run. -/
def mkdirsOf (o : Out) : List (List Char) := evMkdirs o.evs

/-- `mkdir_p` from ids.c: for a path of at most `MAXPATHLEN = 1024` bytes,
create every prefix ending at a `/` and the full path (the loop index
reaching the terminating NUL); an over-long path creates nothing (the
returned error code is ignored by the caller). -/
def mkdir_p (path : List Char) : List Ev :=
  if path.length > 1024 then []
  else (List.range (path.length + 1)).filterMap (fun i =>
    if i = path.length ∨ path.get? i = some '/' then some (Ev.mkdir (path.take i))
    else none)

/-- Attribute and element names used by ids.c. -/
def idA : List Char := chars "id"

/-- The `href` attribute name (xlink:href in the document). -/
def hrefA : List Char := chars "href"

/-- The `name` attribute of a catalog `uri` entry. -/
def nameA : List Char := chars "name"

/-- The `uri` name: both the catalog entry element and its `uri` attribute. -/
def uriA : List Char := chars "uri"

/-- The `component` element name. -/
def componentS : List Char := chars "component"

/-- The `component-ref` element name. -/
def crefS : List Char := chars "component-ref"

/-- The `catalog` element name. -/
def catalogS : List Char := chars "catalog"

/-- The `checklists` container name. -/
def checklistsS : List Char := chars "checklists"

/-- The `data-stream` element name. -/
def datastreamS : List Char := chars "data-stream"

/-- Scan of the collection's direct children in `ds_ids_dump_component`
(lines 125-143): skip non-elements and non-`component` elements; on a
`component`, `xmlGetProp(candidate, "id")` is passed to `strcmp` with no
null check, so a missing `id` before the first match is undefined
behaviour (`Except.error ()`). -/
def findCompAux : List XNode → List Char → Except Unit (Option XNode)
  | [], _ => .ok none
  | XNode.text _ :: rest, cid => findCompAux rest cid
  | XNode.elem nm at_ ch :: rest, cid =>
    if nm = componentS then
      match xmlGetProp (XNode.elem nm at_ ch) idA with
      | none => .error ()
      | some v =>
        if v = cid then .ok (some (XNode.elem nm at_ ch)) else findCompAux rest cid
    else findCompAux rest cid

/-- Message of ids.c line 147 (quoting punctuation elided). -/
def errMsgCompNotFound (cid : List Char) : List Char :=
  chars "Component of given id " ++ cid ++ chars " was not found in the document."

/-- Message of ids.c line 157 (quoting punctuation elided). -/
def errMsgNoContents (cid : List Char) : List Char :=
  chars "Found component (id=" ++ cid ++ chars ") but it has no element contents, nothing to dump, skipping..."

/-- `ds_ids_dump_component(component_id, doc, filename)`: locate the
`component` at the top level, take its first element child, and write that
subtree to `filename` (the clone into a fresh document plus namespace
reconciliation keeps the tree; serialization is the recorded write). -/
def ds_ids_dump_component (component_id : List Char) (doc : XNode) (filename : List Char) : Out :=
  match findCompAux doc.children component_id with
  | .error _ => .ub []
  | .ok none => .done [Ev.err (errMsgCompNotFound component_id)]
  | .ok (some component) =>
    match node_get_child_element component none with
    | none => .done [Ev.err (errMsgNoContents component_id)]
    | some inner_root => .done [Ev.write filename inner_root]

/-- Inner loop of `ds_ids_find_component_ref` (lines 102-115): scan one
container's children for a `component-ref` with the requested `id`; the
`id` value is passed to `strcmp` with no null check (line 111), so a
missing `id` before the first match is undefined behaviour. -/
def findCrefCont : List XNode → List Char → Except Unit (Option XNode)
  | [], _ => .ok none
  | XNode.text _ :: rest, i => findCrefCont rest i
  | XNode.elem nm at_ ch :: rest, i =>
    if nm = crefS then
      match xmlGetProp (XNode.elem nm at_ ch) idA with
      | none => .error ()
      | some v =>
        if v = i then .ok (some (XNode.elem nm at_ ch)) else findCrefCont rest i
    else findCrefCont rest i

/-- Outer loop of `ds_ids_find_component_ref` (lines 93-116): iterate the
datastream's element children (the ref-holding containers) and return the
first match across them. -/
def findCrefAux : List XNode → List Char → Except Unit (Option XNode)
  | [], _ => .ok none
  | XNode.text _ :: rest, i => findCrefAux rest i
  | XNode.elem _ _ ch :: rest, i =>
    match findCrefCont ch i with
    | .error e => .error e
    | .ok (some r) => .ok (some r)
    | .ok none => findCrefAux rest i

/-- `ds_ids_find_component_ref(doc, datastream, id)`; the document
argument is unused in the C body. -/
def ds_ids_find_component_ref (_doc : XNode) (datastream : XNode) (i : List Char) :
    Except Unit (Option XNode) :=
  findCrefAux datastream.children i

/-- Strip trailing slashes (shared step of POSIX `dirname`). -/
def rstripSlash (p : List Char) : List Char :=
  (p.reverse.dropWhile (fun c => c = '/')).reverse

/-- POSIX `dirname` as used via `<libgen.h>`: trailing slashes collapsed,
the final component removed, `.` for a path with no directory part,
`/` when only the root remains. -/
def posixDirname (p : List Char) : List Char :=
  let q := rstripSlash p
  if q.contains '/' then
    let r := rstripSlash ((q.reverse.dropWhile (fun c => c != '/')).reverse)
    if r.isEmpty then chars "/" else r
  else if q.isEmpty && !p.isEmpty then chars "/"
  else chars "."

/-- GNU `basename` (the `<string.h>` variant the code relies on, line
198-200): everything after the last slash, without modifying the input. -/
def gnuBasename (p : List Char) : List Char :=
  (p.reverse.takeWhile (fun c => c != '/')).reverse

/-- Message of ids.c line 181 (punctuation as in the source). -/
def errMsgNoCrefId : List Char :=
  chars "No or invalid id attribute on given component-ref."

/-- Message of ids.c lines 189 and 269. -/
def errMsgNoHref : List Char :=
  chars "No or invalid xlink:href attribute on given component-ref."

/-- Message of ids.c line 228. -/
def errMsgNoName : List Char :=
  chars "No or invalid name for a component referenced in the catalog. Skipping..."

/-- Message of ids.c line 237. -/
def errMsgNoUri : List Char :=
  chars "No or invalid URI for a component referenced in the catalog. Skipping..."

/-- Message of ids.c line 248 (quoting punctuation elided; the C formats a
string it has already freed, which this model renders by its value). -/
def errMsgCrefNotFound (i : List Char) : List Char :=
  chars "component-ref with given id " ++ i ++ chars " was not found in the document!"

/-- Message of ids.c line 318 (quoting punctuation elided). -/
def errMsgNoDatastreamId (i : List Char) : List Char :=
  chars "Could not find any datastream of id " ++ i

/-- Message of ids.c line 319. -/
def errMsgNoDatastream : List Char :=
  chars "Could not find any datastream inside the file"

/-- Message of ids.c line 330. -/
def errMsgNoChecklists : List Char :=
  chars "No checklists element found in the matching datastream."

/-- The catalog loop of `ds_ids_dump_component_ref_as` (lines 211-257),
rendered with the recursive per-ref dump passed as a continuation: skip
non-`uri` children; require `name`, require `uri` of length at least 2,
resolve the `uri` value (leading character stripped) to a component-ref,
and dump it under the parent's directory with the entry's `name` as its
relative filename; per-entry failures raise an error and continue. -/
def ds_ids_catalog_loop (dump : XNode → List Char → Out) (doc datastream : XNode) :
    List XNode → Out
  | [] => .done []
  | XNode.text _ :: rest => ds_ids_catalog_loop dump doc datastream rest
  | XNode.elem nm at_ ch :: rest =>
    if nm = uriA then
      match xmlGetProp (XNode.elem nm at_ ch) nameA with
      | none => Out.push [Ev.err errMsgNoName] (ds_ids_catalog_loop dump doc datastream rest)
      | some nme =>
        match xmlGetProp (XNode.elem nm at_ ch) uriA with
        | none => Out.push [Ev.err errMsgNoUri] (ds_ids_catalog_loop dump doc datastream rest)
        | some str_uri =>
          if str_uri.length < 2 then
            Out.push [Ev.err errMsgNoUri] (ds_ids_catalog_loop dump doc datastream rest)
          else
            match ds_ids_find_component_ref doc datastream (str_uri.drop 1) with
            | .error _ => .ub []
            | .ok none =>
              Out.push [Ev.err (errMsgCrefNotFound (str_uri.drop 1))]
                (ds_ids_catalog_loop dump doc datastream rest)
            | .ok (some cat_component_ref) =>
              Out.seq (dump cat_component_ref nme)
                (ds_ids_catalog_loop dump doc datastream rest)
    else ds_ids_catalog_loop dump doc datastream rest

/-- `ds_ids_dump_component_ref_as(component_ref, doc, datastream,
target_dir, filename)` (lines 176-262), with an explicit recursion-depth
budget: require `id` (recoverable error, return), require `href` of
length at least 2 (recoverable error, return); the component id is `href`
minus its leading character; create `target_dir/dirname("./" ++
filename)`, dump the component to that directory plus the GNU basename of
`filename`, then process the `catalog` child if present, recursing with
the created directory as the new target. -/
def ds_ids_dump_component_ref_as : Nat → XNode → XNode → XNode → List Char → List Char → Out
  | 0, _, _, _, _, _ => .nofuel []
  | fuel + 1, component_ref, doc, datastream, target_dir, filename =>
    match xmlGetProp component_ref idA with
    | none => .done [Ev.err errMsgNoCrefId]
    | some _ =>
      match xmlGetProp component_ref hrefA with
      | none => .done [Ev.err errMsgNoHref]
      | some xlink_href =>
        if xlink_href.length < 2 then .done [Ev.err errMsgNoHref]
        else
          let component_id := xlink_href.drop 1
          let file_reldir := posixDirname (chars "./" ++ filename)
          let file_basename := gnuBasename filename
          let target_filename_dirname := target_dir ++ chars "/" ++ file_reldir
          let target_filename := target_dir ++ chars "/" ++ file_reldir ++ chars "/" ++ file_basename
          Out.push (mkdir_p target_filename_dirname)
            (Out.seq (ds_ids_dump_component component_id doc target_filename)
              (match node_get_child_element component_ref (some catalogS) with
               | none => Out.done []
               | some catalog =>
                 ds_ids_catalog_loop
                   (fun r nme =>
                     ds_ids_dump_component_ref_as fuel r doc datastream target_filename_dirname nme)
                   doc datastream catalog.children))

/-- `ds_ids_dump_component_ref` (lines 264-276): require `href` of length
at least 2, then dump with the text after the leading character as the
relative filename. -/
def ds_ids_dump_component_ref (fuel : Nat) (component_ref doc datastream : XNode)
    (target_dir : List Char) : Out :=
  match xmlGetProp component_ref hrefA with
  | none => .done [Ev.err errMsgNoHref]
  | some xlink_href =>
    if xlink_href.length < 2 then .done [Ev.err errMsgNoHref]
    else
      ds_ids_dump_component_ref_as fuel component_ref doc datastream target_dir
        (xlink_href.drop 1)

/-- Datastream selection loop of `ds_ids_decompose` (lines 293-313): the
first `data-stream` element child matching the requested id, or the first
one at all when no id is requested (`id == NULL || (candidate_id != NULL
&& strcmp(id, candidate_id) == 0)`). -/
def selectDatastream : List XNode → Option (List Char) → Option XNode
  | [], _ => none
  | XNode.text _ :: rest, i => selectDatastream rest i
  | XNode.elem nm at_ ch :: rest, i =>
    if nm = datastreamS then
      match i with
      | none => some (XNode.elem nm at_ ch)
      | some iv =>
        match xmlGetProp (XNode.elem nm at_ ch) idA with
        | some ci => if iv = ci then some (XNode.elem nm at_ ch) else selectDatastream rest i
        | none => selectDatastream rest i
    else selectDatastream rest i

/-- Final loop of `ds_ids_decompose` (lines 334-345): dump every
`component-ref` element child of the checklists container. -/
def ds_ids_checklist_loop (fuel : Nat) (doc datastream : XNode) (target_dir : List Char) :
    List XNode → Out
  | [] => .done []
  | XNode.text _ :: rest => ds_ids_checklist_loop fuel doc datastream target_dir rest
  | XNode.elem nm at_ ch :: rest =>
    if nm = crefS then
      Out.seq
        (ds_ids_dump_component_ref fuel (XNode.elem nm at_ ch) doc datastream target_dir)
        (ds_ids_checklist_loop fuel doc datastream target_dir rest)
    else ds_ids_checklist_loop fuel doc datastream target_dir rest

/-- `ds_ids_decompose(input_file, id, target_dir)` (lines 278-348) after
the external parse: `doc` is the parsed document's root element.  Select
the datastream (no match is a fatal error), require its `checklists`
child (absence is a fatal error), then dump every component-ref child,
substituting `.` for an empty target directory. -/
def ds_ids_decompose (doc : XNode) (i : Option (List Char)) (target_dir : List Char)
    (fuel : Nat) : Out :=
  match selectDatastream doc.children i with
  | none =>
    .done [Ev.err (match i with
      | some iv => errMsgNoDatastreamId iv
      | none => errMsgNoDatastream)]
  | some datastream =>
    match node_get_child_element datastream (some checklistsS) with
    | none => .done [Ev.err errMsgNoChecklists]
    | some checklists =>
      ds_ids_checklist_loop fuel doc datastream
        (if target_dir = [] then chars "." else target_dir) checklists.children

/-- Payload of the first example component. -/
def payload1 : XNode := XNode.elem (chars "Benchmark") [] []

/-- Payload of the second example component. -/
def payload2 : XNode := XNode.elem (chars "oval_definitions") [] []

/-- Example component `c1` with a payload child. -/
def comp1 : XNode := XNode.elem componentS [(idA, chars "c1")] [payload1]

/-- Example component `c2` with a payload child. -/
def comp2 : XNode := XNode.elem componentS [(idA, chars "c2")] [payload2]

/-- Catalog entry on `R1` naming `n.xml` and pointing at ref `R2`. -/
def uriEntryC1 : XNode := XNode.elem uriA [(nameA, chars "n.xml"), (uriA, chars "#R2")] []

/-- Checklist ref `R1`: valid href to `c1`, carrying a catalog. -/
def refR1 : XNode :=
  XNode.elem crefS [(idA, chars "R1"), (hrefA, chars "#c1")]
    [XNode.elem catalogS [] [uriEntryC1]]

/-- Checklist ref `R2`: valid href to `c2`, no catalog. -/
def refR2 : XNode := XNode.elem crefS [(idA, chars "R2"), (hrefA, chars "#c2")] []

/-- Checklists container holding `R1` and `R2`. -/
def checklistsC1 : XNode := XNode.elem checklistsS [] [refR1, refR2]

/-- Datastream `D` of the C1 example collection. -/
def dsC1 : XNode := XNode.elem datastreamS [(idA, chars "D")] [checklistsC1]

/-- C1 example collection: datastream `D` plus components `c1`, `c2`. -/
def rootC1 : XNode := XNode.elem (chars "data-stream-collection") [] [dsC1, comp1, comp2]

/-- `strendswith(str, suffix)` (lines 350-357): compare the tail of `str`
of the suffix's length against the suffix; shorter strings never match. -/
def strendswith (str suffix : List Char) : Bool :=
  if str.length < suffix.length then false
  else (str.drop (str.length - suffix.length) = suffix)

/-- Append a child to the first element child of `parent` carrying the
given name, mirroring `node_get_child_element` followed by `xmlAddChild`;
`none` models `xmlAddChild(NULL, ...)` when no such container exists. -/
def addChildToFirstElem : List XNode → List Char → XNode → Option (List XNode)
  | [], _, _ => none
  | XNode.text s :: rest, nm, c =>
    (addChildToFirstElem rest nm c).map (fun r => XNode.text s :: r)
  | XNode.elem s a ch :: rest, nm, c =>
    if s = nm then some (XNode.elem s a (ch ++ [c]) :: rest)
    else (addChildToFirstElem rest nm c).map (fun r => XNode.elem s a ch :: r)

/-- `ds_ids_compose_add_component_with_ref(doc, datastream, filepath,
cref_id)` (lines 359-395): build a `component-ref` with `id = cref_id`,
`href = "#" ++ filepath` and an empty `catalog` child; pick the container
by filename suffix — `-xccdf.xml` to `checklists`, else `-oval.xml` to
`checks`, else `-cpe-oval.xml` or `-cpe-dictionary.xml` to
`dictionaries`, else `extended-components` — and append the ref there.
Returns the updated datastream node. -/
def ds_ids_compose_add_component_with_ref (datastream : XNode) (filepath cref_id : List Char) :
    Option XNode :=
  let cref := XNode.elem crefS [(idA, cref_id), (hrefA, '#' :: filepath)]
    [XNode.elem catalogS [] []]
  let cref_parent_name :=
    if strendswith filepath (chars "-xccdf.xml") then checklistsS
    else if strendswith filepath (chars "-oval.xml") then chars "checks"
    else if strendswith filepath (chars "-cpe-oval.xml")
        || strendswith filepath (chars "-cpe-dictionary.xml") then chars "dictionaries"
    else chars "extended-components"
  (addChildToFirstElem datastream.children cref_parent_name cref).map
    (fun ch => match datastream with
      | XNode.elem s a _ => XNode.elem s a ch
      | XNode.text s => XNode.text s)

/-- Skeleton built by `ds_ids_compose_from_xccdf` (lines 399-414): a
`data-stream-collection` element with the four containers attached in
source order `dictionaries`, `checklists`, `checks`,
`extended-components` (namespace declarations are not tracked). -/
def ds_ids_compose_skeleton : XNode :=
  XNode.elem (chars "data-stream-collection") []
    [XNode.elem (chars "dictionaries") [] [],
     XNode.elem checklistsS [] [],
     XNode.elem (chars "checks") [] [],
     XNode.elem (chars "extended-components") [] []]

/-- Modelled from the spec: the final statement of
`ds_ids_compose_from_xccdf` (line 416) calls `ds_ids_add_component_with_ref`,
a function declared nowhere in the repository, with three arguments and no
datastream node, so the composition step it was meant to perform is
missing from the source.  Spec section 4.5 specifies
`add_component_with_ref(document, datastream, filepath, ref_id)` applied
to the freshly built skeleton with the input filepath as both path and
ref id; this definition performs that intended call against the defined
`ds_ids_compose_add_component_with_ref`. -/
def ds_ids_compose_from_xccdf_intended (xccdf_file : List Char) : Option XNode :=
  ds_ids_compose_add_component_with_ref ds_ids_compose_skeleton xccdf_file xccdf_file

/-- The `component-ref` element children of a list, in order: exactly the
nodes the checklist loop of `ds_ids_decompose` dumps. -/
def crefsOf (l : List XNode) : List XNode := l.filter (fun n => isElemNamed n crefS)

/-- The payload subtree a component-ref's `href` resolves to: the first
element child of the component named by `href` minus its leading
character (a placeholder empty node when resolution fails). -/
def refPayload (doc r : XNode) : XNode :=
  match xmlGetProp r hrefA with
  | none => XNode.text []
  | some h =>
    match findCompAux doc.children (h.drop 1) with
    | .ok (some c) =>
      match node_get_child_element c none with
      | some p => p
      | none => XNode.text []
    | _ => XNode.text []

/-- A component-ref as hypothesised by the decomposition claim: `id`
present, `href` present with at least 2 characters, and the href's
component id resolving (without undefined behaviour) to a component with
an element payload child. -/
def goodRefOrig (doc r : XNode) : Bool :=
  (xmlGetProp r idA).isSome &&
  (match xmlGetProp r hrefA with
   | none => false
   | some h =>
     decide (2 ≤ h.length) &&
     (match findCompAux doc.children (h.drop 1) with
      | .ok (some c) => (node_get_child_element c none).isSome
      | _ => false))

/-- A claim-shaped component-ref that additionally carries no `catalog`
child. -/
def goodRef (doc r : XNode) : Bool :=
  goodRefOrig doc r && (node_get_child_element r (some catalogS)).isNone

/-- An `href` that `ds_ids_dump_component_ref` rejects: absent or shorter
than 2 characters. -/
def hrefInvalidB (n : XNode) : Bool :=
  match xmlGetProp n hrefA with
  | none => true
  | some h => h.length < 2

/-- Split a path at every slash (the slashes themselves dropped). -/
def splitSlash : List Char → List (List Char)
  | [] => [[]]
  | c :: rest =>
    if c = '/' then [] :: splitSlash rest
    else
      match splitSlash rest with
      | s :: ss => (c :: s) :: ss
      | [] => [[c]]

/-- Path normalization for comparing produced file locations: the
non-empty, non-`.` segments in order (so `out/./a/.` and `out/a` agree). -/
def normPath (p : List Char) : List (List Char) :=
  (splitSlash p).filter (fun s => decide (s ≠ [] ∧ s ≠ ['.']))

/-- Modelled from the spec: the document-tree adapter (spec section 6)
owns the trees; `ds_ids_dump_component` re-rendered over an explicit
store of document trees, slot 0 holding the caller's document, so that
which tree each adapter call mutates is explicit.  `xmlNewDoc` allocates
a fresh slot, `xmlDOMWrapCloneNode` reads the source tree and produces a
copy, `xmlDocSetRootElement` and `xmlDOMWrapReconcileNamespaces` write
the fresh slot only, `xmlSaveFileEnc` reads the fresh slot; `none` models
the undefined id scan. -/
def ds_ids_dump_component_heap (component_id : List Char) (h : List XNode)
    (filename : List Char) : Option (List XNode × List Ev) :=
  match h.get? 0 with
  | none => none
  | some doc =>
    match findCompAux doc.children component_id with
    | .error _ => none
    | .ok none => some (h, [Ev.err (errMsgCompNotFound component_id)])
    | .ok (some component) =>
      match node_get_child_element component none with
      | none => some (h, [Ev.err (errMsgNoContents component_id)])
      | some inner_root =>
        let new_doc := h.length
        let h1 := h ++ [XNode.elem (chars "new-doc") [] []]
        let h2 := h1.set new_doc inner_root
        some (h2, [Ev.write filename inner_root])

/-- Whether the component scan of `ds_ids_dump_component` reaches its
answer without passing a NULL id to `strcmp`: every `component` element
scanned before the first match carries an `id` attribute. -/
def compScanDefined : List XNode → List Char → Bool
  | [], _ => true
  | XNode.text _ :: rest, cid => compScanDefined rest cid
  | XNode.elem nm at_ ch :: rest, cid =>
    if nm = componentS then
      match xmlGetProp (XNode.elem nm at_ ch) idA with
      | none => false
      | some v => if v = cid then true else compScanDefined rest cid
    else compScanDefined rest cid

/-- One container's worth of the component-ref scan: `some true` when the
ref is found here, `some false` when the scan passes through, `none` when
a `component-ref` without `id` is reached first. -/
def crefScanCont : List XNode → List Char → Option Bool
  | [], _ => some false
  | XNode.text _ :: rest, i => crefScanCont rest i
  | XNode.elem nm at_ ch :: rest, i =>
    if nm = crefS then
      match xmlGetProp (XNode.elem nm at_ ch) idA with
      | none => none
      | some v => if v = i then some true else crefScanCont rest i
    else crefScanCont rest i

/-- Whether the scan of `ds_ids_find_component_ref` reaches its answer
without passing a NULL id to `strcmp`: every `component-ref` scanned
before the first match carries an `id` attribute. -/
def crefScanDefined : List XNode → List Char → Bool
  | [], _ => true
  | XNode.text _ :: rest, i => crefScanDefined rest i
  | XNode.elem _ _ ch :: rest, i =>
    match crefScanCont ch i with
    | none => false
    | some true => true
    | some false => crefScanDefined rest i

/-- A catalog `uri` entry that makes `ds_ids_dump_component_ref_as`
recurse into `r2`: a `uri` element with a `name`, a `uri` value of length
at least 2, whose stripped value resolves to the component-ref `r2`. -/
def entryResolvesTo (doc datastream u r2 : XNode) : Prop :=
  isElemNamed u uriA = true ∧ (xmlGetProp u nameA).isSome = true ∧
  ∃ v, xmlGetProp u uriA = some v ∧ 2 ≤ v.length ∧
    ds_ids_find_component_ref doc datastream (v.drop 1) = .ok (some r2)

/-- The recursion edge of the catalog graph: `r`'s catalog holds an entry
resolving to `r2`. -/
def CatalogEdge (doc datastream r r2 : XNode) : Prop :=
  ∃ cat, node_get_child_element r (some catalogS) = some cat ∧
    ∃ u ∈ cat.children, entryResolvesTo doc datastream u r2

/-- Payload of component `cA` in the C8 cycle document. -/
def payloadA : XNode := XNode.elem (chars "PA") [] []

/-- Payload of component `cB` in the C8 cycle document. -/
def payloadB : XNode := XNode.elem (chars "PB") [] []

/-- Component `cA` of the C8 cycle document. -/
def compA : XNode := XNode.elem componentS [(idA, chars "cA")] [payloadA]

/-- Component `cB` of the C8 cycle document. -/
def compB : XNode := XNode.elem componentS [(idA, chars "cB")] [payloadB]

/-- Ref `A`: its catalog points at ref `B`. -/
def refA : XNode :=
  XNode.elem crefS [(idA, chars "A"), (hrefA, chars "#cA")]
    [XNode.elem catalogS []
      [XNode.elem uriA [(nameA, chars "fB.xml"), (uriA, chars "#B")] []]]

/-- Ref `B`: its catalog points back at ref `A`. -/
def refB : XNode :=
  XNode.elem crefS [(idA, chars "B"), (hrefA, chars "#cB")]
    [XNode.elem catalogS []
      [XNode.elem uriA [(nameA, chars "fA.xml"), (uriA, chars "#A")] []]]

/-- Datastream of the C8 cycle document: `A` under checklists, `B` under
checks, with a catalog cycle between them. -/
def ds8 : XNode :=
  XNode.elem datastreamS [(idA, chars "D8")]
    [XNode.elem checklistsS [] [refA], XNode.elem (chars "checks") [] [refB]]

/-- The C8 cycle collection. -/
def root8 : XNode :=
  XNode.elem (chars "data-stream-collection") [] [ds8, compA, compB]

/-- A datastream with no children: its ref lookup always returns
not-found, so its catalog graph has no edges. -/
def ds9 : XNode := XNode.elem datastreamS [] []

/-- Collection around `ds9`. -/
def root9 : XNode := XNode.elem (chars "data-stream-collection") [] [ds9]

/-- A component-ref with `href` present but no `id` attribute (C4). -/
def cref4 : XNode := XNode.elem crefS [(hrefA, chars "#c1")] []

/-- A component-ref whose `href` is the single character `#` (C7). -/
def cref7 : XNode := XNode.elem crefS [(idA, chars "R7"), (hrefA, chars "#")] []

/-- A datastream whose only container is `checks`: no `checklists` child
(C6). -/
def ds6 : XNode :=
  XNode.elem datastreamS [(idA, chars "D6")] [XNode.elem (chars "checks") [] []]

/-- Collection around `ds6`. -/
def root6 : XNode := XNode.elem (chars "data-stream-collection") [] [ds6]

/-- A collection whose only top-level component has no `id` attribute:
the component scan is undefined on it (C10). -/
def root10 : XNode :=
  XNode.elem (chars "data-stream-collection") [] [XNode.elem componentS [] []]

/-- A datastream holding one `component-ref` without `id`: the ref scan
is undefined on it (C10). -/
def ds10 : XNode :=
  XNode.elem datastreamS []
    [XNode.elem checklistsS [] [XNode.elem crefS [(hrefA, chars "#x")] []]]

/-- Checklists container of the catalog-free C1 witness document. -/
def checklistsW : XNode := XNode.elem checklistsS [] [refR2]

/-- Datastream of the catalog-free C1 witness document. -/
def dsW : XNode := XNode.elem datastreamS [(idA, chars "D")] [checklistsW]

/-- Catalog-free C1 witness collection. -/
def rootW : XNode := XNode.elem (chars "data-stream-collection") [] [dsW, comp2]

/-- Checklist ref of the C5 witness: href to `c1`, catalog entry named
`n.xml` pointing at ref `Q2`. -/
def refQ1 : XNode :=
  XNode.elem crefS [(idA, chars "Q1"), (hrefA, chars "#c1")]
    [XNode.elem catalogS []
      [XNode.elem uriA [(nameA, chars "n.xml"), (uriA, chars "#Q2")] []]]

/-- Checks-container ref of the C5 witness: href to `c2`, no catalog. -/
def refQ2 : XNode := XNode.elem crefS [(idA, chars "Q2"), (hrefA, chars "#c2")] []

/-- Datastream of the C5 witness document. -/
def dsC5 : XNode :=
  XNode.elem datastreamS [(idA, chars "D")]
    [XNode.elem checklistsS [] [refQ1], XNode.elem (chars "checks") [] [refQ2]]

/-- C5 witness collection. -/
def rootC5 : XNode :=
  XNode.elem (chars "data-stream-collection") [] [dsC5, comp1, comp2]

theorem Out.evs_push (e : List Ev) (o : Out) : (Out.push e o).evs = e ++ o.evs := by
  cases o <;> rfl

theorem Out.push_push (a b : List Ev) (o : Out) :
    Out.push a (Out.push b o) = Out.push (a ++ b) o := by
  cases o <;> simp [Out.push]

theorem Out.seq_done_left (e : List Ev) (o : Out) : Out.seq (Out.done e) o = Out.push e o := rfl

theorem Out.seq_nofuel_left (e : List Ev) (o : Out) :
    Out.seq (Out.nofuel e) o = Out.nofuel e := rfl

theorem Out.seq_push_left (e : List Ev) (a b : Out) :
    Out.seq (Out.push e a) b = Out.push e (Out.seq a b) := by
  cases a <;> cases b <;> simp [Out.push, Out.seq, List.append_assoc]

theorem Out.seq_assoc (a b c : Out) : Out.seq (Out.seq a b) c = Out.seq a (Out.seq b c) := by
  cases a <;> cases b <;> cases c <;> simp [Out.seq, Out.push, List.append_assoc]

theorem Out.isNofuel_push (e : List Ev) (o : Out) : (Out.push e o).isNofuel = o.isNofuel := by
  cases o <;> rfl

theorem Out.isNofuel_seq_done (e : List Ev) (o : Out) :
    (Out.seq (Out.done e) o).isNofuel = o.isNofuel := by
  cases o <;> rfl

theorem evWrites_append (a b : List Ev) : evWrites (a ++ b) = evWrites a ++ evWrites b := by
  simp [evWrites, List.filterMap_append]

theorem evErrs_append (a b : List Ev) : evErrs (a ++ b) = evErrs a ++ evErrs b := by
  simp [evErrs, List.filterMap_append]

theorem writesOf_push (e : List Ev) (o : Out) :
    writesOf (Out.push e o) = evWrites e ++ writesOf o := by
  simp [writesOf, Out.evs_push, evWrites_append]

theorem evWrites_eq_nil (l : List Ev) (h : ∀ e ∈ l, evWrites [e] = []) : evWrites l = [] := by
  induction l with
  | nil => rfl
  | cons x xs ih =>
    have hsplit : evWrites (x :: xs) = evWrites [x] ++ evWrites xs := by
      simpa using evWrites_append [x] xs
    rw [hsplit, h x (List.mem_cons_self x xs), ih (fun e he => h e (List.mem_cons_of_mem x he))]
    rfl

theorem evWrites_mkdir_p (p : List Char) : evWrites (mkdir_p p) = [] := by
  apply evWrites_eq_nil
  intro e he
  unfold mkdir_p at he
  split at he
  · exact absurd he (List.not_mem_nil e)
  · rw [List.mem_filterMap] at he
    obtain ⟨i, _, hi⟩ := he
    split at hi
    · simp only [Option.some.injEq] at hi
      subst hi
      rfl
    · exact Option.noConfusion hi

/-- C2: evaluation of `ds_ids_compose_add_component_with_ref` on a
filepath ending in `-cpe-oval.xml`.  Because the `-oval.xml` test comes
first in the if-chain (line 381) and `-cpe-oval.xml` ends in `-oval.xml`,
the component-ref is appended under `checks`, not under `dictionaries` as
claimed — the explicit `-cpe-oval.xml` test in the dictionaries branch
(line 385) is unreachable. -/
theorem c2_cpe_oval_classified_as_checks :
    ds_ids_compose_add_component_with_ref ds_ids_compose_skeleton
        (chars "bar-cpe-oval.xml") (chars "r")
      = some (XNode.elem (chars "data-stream-collection") []
          [XNode.elem (chars "dictionaries") [] [],
           XNode.elem checklistsS [] [],
           XNode.elem (chars "checks") []
             [XNode.elem crefS
               [(idA, chars "r"), (hrefA, chars "#bar-cpe-oval.xml")]
               [XNode.elem catalogS [] []]],
           XNode.elem (chars "extended-components") [] []]) := rfl

/-- C3: the composition step `ds_ids_compose_from_xccdf` was meant to
perform (its line 416 calls an undeclared function with the wrong arity,
so the source as written does not link): adding `foo-xccdf.xml` to the
fresh skeleton places exactly one component-ref under `checklists` with
href `#foo-xccdf.xml`, leaving `dictionaries`, `checks` and
`extended-components` empty. -/
theorem c3_intended_compose_skeleton :
    ds_ids_compose_from_xccdf_intended (chars "foo-xccdf.xml")
      = some (XNode.elem (chars "data-stream-collection") []
          [XNode.elem (chars "dictionaries") [] [],
           XNode.elem checklistsS []
             [XNode.elem crefS
               [(idA, chars "foo-xccdf.xml"), (hrefA, chars "#foo-xccdf.xml")]
               [XNode.elem catalogS [] []]],
           XNode.elem (chars "checks") [] [],
           XNode.elem (chars "extended-components") [] []]) := rfl

/-- C4 counterexample: a component-ref without `id` but with the valid
href `#c1`, in a document where component `c1` exists with a payload.
`ds_ids_dump_component_ref_as` raises the recoverable error and returns
immediately (line 183): no file is written, refuting "nevertheless
proceeds to dump the component identified by href". -/
theorem c4_counterexample :
    writesOf (ds_ids_dump_component_ref_as 5 cref4 rootC1 dsC1 (chars "out") (chars "c1")) = []
    ∧ errsOf (ds_ids_dump_component_ref_as 5 cref4 rootC1 dsC1 (chars "out") (chars "c1"))
        = [errMsgNoCrefId] := ⟨rfl, rfl⟩

/-- C4 (amended): for every component-ref whose `id` attribute is absent,
`ds_ids_dump_component_ref_as` reports the recoverable error and returns
without dumping anything, whatever the `href` says. -/
theorem c4_missing_id_skips (fuel : Nat) (component_ref doc datastream : XNode)
    (target_dir filename : List Char)
    (hid : xmlGetProp component_ref idA = none) :
    ds_ids_dump_component_ref_as (fuel + 1) component_ref doc datastream target_dir filename
      = Out.done [Ev.err errMsgNoCrefId] := by
  simp [ds_ids_dump_component_ref_as, hid]

/-- C4 witness: the amended statement at the concrete C4 input. -/
theorem c4_witness :
    ds_ids_dump_component_ref_as 3 cref4 rootC1 dsC1 (chars "out") (chars "c1")
      = Out.done [Ev.err errMsgNoCrefId] :=
  c4_missing_id_skips 2 cref4 rootC1 dsC1 (chars "out") (chars "c1") rfl

/-- C6: when the selected datastream has no `checklists` child element,
`ds_ids_decompose` raises the fatal error and returns having written no
file and created no directory. -/
theorem c6_missing_checklists_fatal (doc : XNode) (i : Option (List Char))
    (target_dir : List Char) (fuel : Nat) (datastream : XNode)
    (hsel : selectDatastream doc.children i = some datastream)
    (hcl : node_get_child_element datastream (some checklistsS) = none) :
    ds_ids_decompose doc i target_dir fuel = Out.done [Ev.err errMsgNoChecklists]
    ∧ writesOf (ds_ids_decompose doc i target_dir fuel) = []
    ∧ mkdirsOf (ds_ids_decompose doc i target_dir fuel) = [] := by
  have h : ds_ids_decompose doc i target_dir fuel = Out.done [Ev.err errMsgNoChecklists] := by
    simp [ds_ids_decompose, hsel, hcl]
  exact ⟨h, by rw [h]; rfl, by rw [h]; rfl⟩

/-- C6 witness: the statement at a concrete datastream whose only
container is `checks`. -/
theorem c6_witness :
    ds_ids_decompose root6 (some (chars "D6")) (chars "out") 5
        = Out.done [Ev.err errMsgNoChecklists]
    ∧ writesOf (ds_ids_decompose root6 (some (chars "D6")) (chars "out") 5) = []
    ∧ mkdirsOf (ds_ids_decompose root6 (some (chars "D6")) (chars "out") 5) = [] :=
  c6_missing_checklists_fatal root6 (some (chars "D6")) (chars "out") 5 ds6 rfl rfl

/-- C7: a component-ref element whose `href` is absent or shorter than 2
characters makes `ds_ids_dump_component_ref` raise the recoverable error
and write nothing, and the checklist loop's output for the remaining
sibling refs is exactly what it would be without the offending ref. -/
theorem c7_short_href_recoverable (fuel : Nat) (component_ref doc datastream : XNode)
    (target_dir : List Char) (rest : List XNode)
    (hname : isElemNamed component_ref crefS = true)
    (hhref : hrefInvalidB component_ref = true) :
    ds_ids_dump_component_ref fuel component_ref doc datastream target_dir
        = Out.done [Ev.err errMsgNoHref]
    ∧ writesOf (ds_ids_checklist_loop fuel doc datastream target_dir (component_ref :: rest))
        = writesOf (ds_ids_checklist_loop fuel doc datastream target_dir rest) := by
  have hdump : ds_ids_dump_component_ref fuel component_ref doc datastream target_dir
      = Out.done [Ev.err errMsgNoHref] := by
    unfold hrefInvalidB at hhref
    unfold ds_ids_dump_component_ref
    cases hh : xmlGetProp component_ref hrefA with
    | none => rfl
    | some h =>
      rw [hh] at hhref
      simp only [decide_eq_true_eq] at hhref
      simp [hhref]
  refine ⟨hdump, ?_⟩
  cases component_ref with
  | text s => exact absurd hname (by simp [isElemNamed])
  | elem s a c =>
    have hs : s = crefS := by simpa [isElemNamed] using hname
    rw [ds_ids_checklist_loop, if_pos hs, hdump, Out.seq_done_left, writesOf_push]
    rfl

/-- C7 witness: the statement at the concrete ref whose href is `#`,
followed by the sibling `R2`. -/
theorem c7_witness :
    ds_ids_dump_component_ref 5 cref7 rootC1 dsC1 (chars "out") = Out.done [Ev.err errMsgNoHref]
    ∧ writesOf (ds_ids_checklist_loop 5 rootC1 dsC1 (chars "out") (cref7 :: [refR2]))
        = writesOf (ds_ids_checklist_loop 5 rootC1 dsC1 (chars "out") [refR2]) :=
  c7_short_href_recoverable 5 cref7 rootC1 dsC1 (chars "out") [refR2] rfl rfl

/-- C9: `ds_ids_dump_component`, rendered over the explicit document
store, leaves the caller's document (slot 0) unchanged on every path: the
clone is written into the freshly allocated document, which alone is
mutated and serialized. -/
theorem c9_dump_component_preserves_original (component_id : List Char) (h : List XNode)
    (filename : List Char) :
    ((ds_ids_dump_component_heap component_id h filename).map (fun p => p.1.head?)).getD
        h.head? = h.head? := by
  cases h with
  | nil => rfl
  | cons d t =>
    cases hf : findCompAux d.children component_id with
    | error u => simp [ds_ids_dump_component_heap, hf]
    | ok o =>
      cases o with
      | none => simp [ds_ids_dump_component_heap, hf]
      | some comp =>
        cases hg : node_get_child_element comp none with
        | none => simp [ds_ids_dump_component_heap, hf, hg]
        | some inner => simp [ds_ids_dump_component_heap, hf, hg, List.set]
theorem crefScanCont_spec (l : List XNode) (i : List Char) :
    (crefScanCont l i = none → findCrefCont l i = Except.error ())
    ∧ (crefScanCont l i = some true → ∃ r, findCrefCont l i = Except.ok (some r))
    ∧ (crefScanCont l i = some false → findCrefCont l i = Except.ok none) := by
  induction l with
  | nil =>
    refine ⟨fun hc => ?_, fun hc => ?_, fun _ => rfl⟩
    · exact absurd hc (by simp [crefScanCont])
    · exact absurd hc (by simp [crefScanCont])
  | cons x rest ih =>
    cases x with
    | text s => simpa [crefScanCont, findCrefCont] using ih
    | elem nm at_ ch =>
      by_cases hnm : nm = crefS
      · subst hnm
        cases hid : xmlGetProp (XNode.elem crefS at_ ch) idA with
        | none =>
          refine ⟨fun _ => ?_, fun hc => ?_, fun hc => ?_⟩
          · simp [findCrefCont, hid]
          · exact absurd hc (by simp [crefScanCont, hid])
          · exact absurd hc (by simp [crefScanCont, hid])
        | some v =>
          by_cases hv : v = i
          · refine ⟨fun hc => ?_, fun _ => ?_, fun hc => ?_⟩
            · exact absurd hc (by simp [crefScanCont, hid, hv])
            · exact ⟨XNode.elem crefS at_ ch, by simp [findCrefCont, hid, hv]⟩
            · exact absurd hc (by simp [crefScanCont, hid, hv])
          · have hred : crefScanCont (XNode.elem crefS at_ ch :: rest) i = crefScanCont rest i := by
              simp [crefScanCont, hid, hv]
            have hred2 : findCrefCont (XNode.elem crefS at_ ch :: rest) i = findCrefCont rest i := by
              simp [findCrefCont, hid, hv]
            rw [hred, hred2]
            exact ih
      · have hred : crefScanCont (XNode.elem nm at_ ch :: rest) i = crefScanCont rest i := by
          simp [crefScanCont, hnm]
        have hred2 : findCrefCont (XNode.elem nm at_ ch :: rest) i = findCrefCont rest i := by
          simp [findCrefCont, hnm]
        rw [hred, hred2]
        exact ih

/-- C10: the id-matching scans pass attribute values to `strcmp` with no
null check; whenever every `component-ref` (resp. top-level `component`)
scanned before the first match carries an `id` attribute the lookups are
total (no undefined comparison), and the concrete documents `ds10` /
`root10`, which violate that precondition, reach the undefined
comparison. -/
theorem c10_id_scan_totality :
    (∀ (l : List XNode) (i : List Char),
        crefScanDefined l i = true ↔ findCrefAux l i ≠ Except.error ())
    ∧ (∀ (l : List XNode) (cid : List Char),
        compScanDefined l cid = true ↔ findCompAux l cid ≠ Except.error ())
    ∧ findCrefAux ds10.children (chars "x") = Except.error ()
    ∧ findCompAux root10.children (chars "c") = Except.error () := by
  refine ⟨fun l i => ?_, fun l cid => ?_, rfl, rfl⟩
  · induction l with
    | nil => simp [crefScanDefined, findCrefAux]
    | cons x rest ih =>
      cases x with
      | text s => simpa [crefScanDefined, findCrefAux] using ih
      | elem nm at_ ch =>
        cases hc : crefScanCont ch i with
        | none =>
          have he := (crefScanCont_spec ch i).1 hc
          simp [crefScanDefined, findCrefAux, hc, he]
        | some b =>
          cases b with
          | true =>
            obtain ⟨r, hr⟩ := (crefScanCont_spec ch i).2.1 hc
            simp [crefScanDefined, findCrefAux, hc, hr]
          | false =>
            have he := (crefScanCont_spec ch i).2.2 hc
            simp only [crefScanDefined, findCrefAux, hc, he]
            exact ih
  · induction l with
    | nil => simp [compScanDefined, findCompAux]
    | cons x rest ih =>
      cases x with
      | text s => simpa [compScanDefined, findCompAux] using ih
      | elem nm at_ ch =>
        by_cases hnm : nm = componentS
        · subst hnm
          cases hid : xmlGetProp (XNode.elem componentS at_ ch) idA with
          | none => simp [compScanDefined, findCompAux, hid]
          | some v =>
            by_cases hv : v = cid
            · simp [compScanDefined, findCompAux, hid, hv]
            · have hred : compScanDefined (XNode.elem componentS at_ ch :: rest) cid
                  = compScanDefined rest cid := by
                simp [compScanDefined, hid, hv]
              have hred2 : findCompAux (XNode.elem componentS at_ ch :: rest) cid
                  = findCompAux rest cid := by
                simp [findCompAux, hid, hv]
              rw [hred, hred2]
              exact ih
        · have hred : compScanDefined (XNode.elem nm at_ ch :: rest) cid
              = compScanDefined rest cid := by
            simp [compScanDefined, hnm]
          have hred2 : findCompAux (XNode.elem nm at_ ch :: rest) cid
              = findCompAux rest cid := by
            simp [findCompAux, hnm]
          rw [hred, hred2]
          exact ih

/-- C10 witness: the totality direction at the C1 example document. -/
theorem c10_witness :
    findCrefAux dsC1.children (chars "R2") ≠ Except.error ()
    ∧ findCompAux rootC1.children (chars "c1") ≠ Except.error () :=
  ⟨(c10_id_scan_totality.1 dsC1.children (chars "R2")).mp rfl,
   (c10_id_scan_totality.2.1 rootC1.children (chars "c1")).mp rfl⟩

theorem dump_component_good (doc : XNode) (cid fn : List Char) (c p : XNode)
    (hf : findCompAux doc.children cid = Except.ok (some c))
    (hp : node_get_child_element c none = some p) :
    ds_ids_dump_component cid doc fn = Out.done [Ev.write fn p] := by
  simp [ds_ids_dump_component, hf, hp]

theorem dump_cref_good (fuel : Nat) (doc datastream r : XNode) (td : List Char)
    (hg : goodRef doc r = true) :
    ∃ pre path, ds_ids_dump_component_ref (fuel + 1) r doc datastream td
        = Out.done (pre ++ [Ev.write path (refPayload doc r)])
      ∧ evWrites pre = [] := by
  unfold goodRef goodRefOrig at hg
  cases hid : xmlGetProp r idA with
  | none => simp [hid] at hg
  | some iv =>
  cases hh : xmlGetProp r hrefA with
  | none => simp [hid, hh] at hg
  | some h =>
  simp only [hid, hh] at hg
  cases hfc : findCompAux doc.children (h.drop 1) with
  | error u => rw [hfc] at hg; simp at hg
  | ok o =>
  cases o with
  | none => rw [hfc] at hg; simp at hg
  | some c =>
  rw [hfc] at hg
  simp only [Option.isSome_some, Bool.true_and, Bool.and_eq_true, decide_eq_true_eq,
    Option.isSome_iff_exists, Option.isNone_iff_eq_none] at hg
  obtain ⟨⟨hlen, p, hp⟩, hcat⟩ := hg
  have hlt : ¬ (h.length < 2) := by omega
  have hpay : refPayload doc r = p := by
    simp only [refPayload, hh, hfc, hp]
  refine ⟨mkdir_p (td ++ chars "/" ++ posixDirname (chars "./" ++ h.drop 1)),
    td ++ chars "/" ++ posixDirname (chars "./" ++ h.drop 1) ++ chars "/"
      ++ gnuBasename (h.drop 1), ?_, evWrites_mkdir_p _⟩
  unfold ds_ids_dump_component_ref
  simp only [hh, if_neg hlt, ds_ids_dump_component_ref_as, hid, hcat,
    dump_component_good doc (h.drop 1) _ c p hfc hp, hpay]
  rfl

theorem checklist_loop_writes (fuel : Nat) (doc datastream : XNode) (td : List Char)
    (l : List XNode) (hgood : ∀ r ∈ crefsOf l, goodRef doc r = true) :
    (writesOf (ds_ids_checklist_loop (fuel + 1) doc datastream td l)).map Prod.snd
      = (crefsOf l).map (refPayload doc) := by
  induction l with
  | nil => rfl
  | cons x rest ih =>
    cases x with
    | text s =>
      have hc : crefsOf (XNode.text s :: rest) = crefsOf rest := by
        simp [crefsOf, List.filter_cons, isElemNamed]
      rw [ds_ids_checklist_loop, hc]
      exact ih (by rw [← hc]; exact hgood)
    | elem nm a c =>
      by_cases hnm : nm = crefS
      · subst hnm
        have hc : crefsOf (XNode.elem crefS a c :: rest)
            = XNode.elem crefS a c :: crefsOf rest := by
          simp [crefsOf, List.filter_cons, isElemNamed]
        have hgx : goodRef doc (XNode.elem crefS a c) = true :=
          hgood _ (by rw [hc]; exact List.mem_cons_self _ _)
        obtain ⟨pre, path, heq, hpre⟩ := dump_cref_good fuel doc datastream _ td hgx
        rw [ds_ids_checklist_loop, if_pos rfl, heq, Out.seq_done_left, writesOf_push,
          evWrites_append, hpre, hc]
        have hrest : ∀ r ∈ crefsOf rest, goodRef doc r = true := by
          intro r hr
          exact hgood r (by rw [hc]; exact List.mem_cons_of_mem _ hr)
        rw [List.map_append, ih hrest]
        rfl
      · have hc : crefsOf (XNode.elem nm a c :: rest) = crefsOf rest := by
          simp [crefsOf, List.filter_cons, isElemNamed, hnm]
        rw [ds_ids_checklist_loop, if_neg hnm, hc]
        exact ih (by rw [← hc]; exact hgood)

/-- C1 (amended): for a document whose selected datastream has a
checklists container all of whose component-ref children are
claim-shaped (id and resolving href with payload) and carry no catalog,
decomposition writes exactly one file per component-ref, in order, whose
content is that ref's resolved payload subtree.  (With catalogs present
additional nested files appear, which is what the counterexample
exhibits.) -/
theorem c1_amended_decompose_writes (doc datastream checklists : XNode)
    (dsid td : List Char) (fuel : Nat)
    (hsel : selectDatastream doc.children (some dsid) = some datastream)
    (hcl : node_get_child_element datastream (some checklistsS) = some checklists)
    (hgood : ∀ r ∈ crefsOf checklists.children, goodRef doc r = true) :
    (writesOf (ds_ids_decompose doc (some dsid) td (fuel + 1))).map Prod.snd
      = (crefsOf checklists.children).map (refPayload doc) := by
  unfold ds_ids_decompose
  simp only [hsel, hcl]
  exact checklist_loop_writes fuel doc datastream _ _ hgood

/-- C1 counterexample: in `rootC1`, datastream `D`'s checklists container
holds the two refs `R1`, `R2`, both with valid hrefs resolving to
components with payloads (the claim's hypotheses hold), yet `R1` carries
a catalog entry pointing at `R2`, so decomposition emits three files for
two refs — not exactly one output file per ref. -/
theorem c1_counterexample :
    selectDatastream rootC1.children (some (chars "D")) = some dsC1
    ∧ node_get_child_element dsC1 (some checklistsS) = some checklistsC1
    ∧ (∀ r ∈ crefsOf checklistsC1.children, goodRefOrig rootC1 r = true)
    ∧ ¬ ((writesOf (ds_ids_decompose rootC1 (some (chars "D")) (chars "out") 9)).map Prod.snd
          = (crefsOf checklistsC1.children).map (refPayload rootC1)) := by
  refine ⟨rfl, rfl, by decide, fun hcontra => ?_⟩
  exact absurd (congrArg List.length hcontra) (by decide)

/-- C1 witness: the amended statement at the catalog-free document
`rootW`, whose single checklist ref dumps its payload once. -/
theorem c1_amended_witness :
    (writesOf (ds_ids_decompose rootW (some (chars "D")) (chars "out") 5)).map Prod.snd
      = (crefsOf checklistsW.children).map (refPayload rootW) :=
  c1_amended_decompose_writes rootW dsW checklistsW (chars "D") (chars "out") 4 rfl rfl
    (by decide)

theorem Out.isNofuel_iff (o : Out) : o.isNofuel = true ↔ ∃ e, o = Out.nofuel e := by
  cases o <;> simp [Out.isNofuel]

theorem dump_component_not_nofuel (cid : List Char) (doc : XNode) (fn : List Char) :
    (ds_ids_dump_component cid doc fn).isNofuel = false := by
  unfold ds_ids_dump_component
  split
  · rfl
  · rfl
  · split <;> rfl

theorem cycle_nofuel (n : Nat) : ∀ (T f : List Char),
    (ds_ids_dump_component_ref_as n refA root8 ds8 T f).isNofuel = true
    ∧ (ds_ids_dump_component_ref_as n refB root8 ds8 T f).isNofuel = true := by
  induction n with
  | zero => exact fun T f => ⟨rfl, rfl⟩
  | succ n ih =>
    intro T f
    constructor
    · have hstep : ds_ids_dump_component_ref_as (n + 1) refA root8 ds8 T f
          = Out.push (mkdir_p (T ++ chars "/" ++ posixDirname (chars "./" ++ f)))
              (Out.seq
                (Out.done [Ev.write (T ++ chars "/" ++ posixDirname (chars "./" ++ f)
                  ++ chars "/" ++ gnuBasename f) payloadA])
                (Out.seq
                  (ds_ids_dump_component_ref_as n refB root8 ds8
                    (T ++ chars "/" ++ posixDirname (chars "./" ++ f)) (chars "fB.xml"))
                  (Out.done []))) := rfl
      obtain ⟨e, he⟩ := (Out.isNofuel_iff _).mp
        ((ih (T ++ chars "/" ++ posixDirname (chars "./" ++ f)) (chars "fB.xml")).2)
      rw [hstep, he, Out.isNofuel_push, Out.isNofuel_seq_done, Out.seq_nofuel_left]
      rfl
    · have hstep : ds_ids_dump_component_ref_as (n + 1) refB root8 ds8 T f
          = Out.push (mkdir_p (T ++ chars "/" ++ posixDirname (chars "./" ++ f)))
              (Out.seq
                (Out.done [Ev.write (T ++ chars "/" ++ posixDirname (chars "./" ++ f)
                  ++ chars "/" ++ gnuBasename f) payloadB])
                (Out.seq
                  (ds_ids_dump_component_ref_as n refA root8 ds8
                    (T ++ chars "/" ++ posixDirname (chars "./" ++ f)) (chars "fA.xml"))
                  (Out.done []))) := rfl
      obtain ⟨e, he⟩ := (Out.isNofuel_iff _).mp
        ((ih (T ++ chars "/" ++ posixDirname (chars "./" ++ f)) (chars "fA.xml")).1)
      rw [hstep, he, Out.isNofuel_push, Out.isNofuel_seq_done, Out.seq_nofuel_left]
      rfl

theorem catalog_loop_no_fuel (doc datastream : XNode) (rank : XNode → Nat)
    (hrank : ∀ r r2, CatalogEdge doc datastream r r2 → rank r2 < rank r)
    (n : Nat)
    (ih : ∀ (r : XNode) (T f : List Char), rank r < n →
      (ds_ids_dump_component_ref_as n r doc datastream T f).isNofuel = false)
    (r cat : XNode) (hcat : node_get_child_element r (some catalogS) = some cat)
    (hr : rank r < n + 1) (tfd : List Char) :
    ∀ (l : List XNode), (∀ u ∈ l, u ∈ cat.children) →
      (ds_ids_catalog_loop
        (fun r2 nme => ds_ids_dump_component_ref_as n r2 doc datastream tfd nme)
        doc datastream l).isNofuel = false := by
  intro l
  induction l with
  | nil => exact fun _ => rfl
  | cons u rest ihl =>
    intro hsub
    have hrest : ∀ x ∈ rest, x ∈ cat.children :=
      fun x hx => hsub x (List.mem_cons_of_mem _ hx)
    cases u with
    | text s =>
      rw [ds_ids_catalog_loop]
      exact ihl hrest
    | elem nm a ch =>
      by_cases hnm : nm = uriA
      · subst hnm
        rw [ds_ids_catalog_loop, if_pos rfl]
        cases hname : xmlGetProp (XNode.elem uriA a ch) nameA with
        | none =>
          rw [Out.isNofuel_push]
          exact ihl hrest
        | some nme =>
          cases huri : xmlGetProp (XNode.elem uriA a ch) uriA with
          | none =>
            rw [Out.isNofuel_push]
            exact ihl hrest
          | some v =>
            dsimp only
            by_cases hvl : v.length < 2
            · rw [if_pos hvl, Out.isNofuel_push]
              exact ihl hrest
            · rw [if_neg hvl]
              cases hfind : ds_ids_find_component_ref doc datastream (v.drop 1) with
              | error e => rfl
              | ok o =>
                cases o with
                | none =>
                  rw [Out.isNofuel_push]
                  exact ihl hrest
                | some r2 =>
                  dsimp only
                  have hedge : CatalogEdge doc datastream r r2 :=
                    ⟨cat, hcat, XNode.elem uriA a ch, hsub _ (List.mem_cons_self _ _),
                      by simp [isElemNamed], by rw [hname]; rfl,
                      v, huri, by omega, hfind⟩
                  have hr2 : rank r2 < n :=
                    Nat.lt_of_lt_of_le (hrank r r2 hedge) (Nat.lt_succ_iff.mp hr)
                  cases hdump : ds_ids_dump_component_ref_as n r2 doc datastream tfd nme with
                  | done e =>
                    rw [Out.seq_done_left, Out.isNofuel_push]
                    exact ihl hrest
                  | ub e => rfl
                  | nofuel e =>
                    have h1 := ih r2 tfd nme hr2
                    rw [hdump] at h1
                    exact absurd h1 (by simp [Out.isNofuel])
      · rw [ds_ids_catalog_loop, if_neg hnm]
        exact ihl hrest

/-- C8: the recursion of `ds_ids_dump_component_ref_as` has no depth or
cycle guard.  On the concrete two-ref catalog cycle `refA` to `refB` to
`refA` the run exceeds every recursion-depth budget (nontermination),
while whenever the catalog reference graph admits a decreasing rank (in
particular whenever it is acyclic) a budget above the starting ref's rank
is never exhausted, so the recursion terminates. -/
theorem c8_termination_and_cycle :
    (∀ (fuel : Nat) (T f : List Char),
        (ds_ids_dump_component_ref_as fuel refA root8 ds8 T f).isNofuel = true)
    ∧ (∀ (doc datastream : XNode) (rank : XNode → Nat),
        (∀ r r2, CatalogEdge doc datastream r r2 → rank r2 < rank r) →
        ∀ (fuel : Nat) (r : XNode) (T f : List Char), rank r < fuel →
          (ds_ids_dump_component_ref_as fuel r doc datastream T f).isNofuel = false) := by
  constructor
  · exact fun fuel T f => (cycle_nofuel fuel T f).1
  · intro doc datastream rank hrank fuel
    induction fuel with
    | zero => exact fun r T f hlt => absurd hlt (Nat.not_lt_zero _)
    | succ n ih =>
      intro r T f hlt
      simp only [ds_ids_dump_component_ref_as]
      cases hid : xmlGetProp r idA with
      | none => rfl
      | some iv =>
        simp only [hid]
        cases hh : xmlGetProp r hrefA with
        | none => rfl
        | some h =>
          simp only [hh]
          by_cases hlen : h.length < 2
          · rw [if_pos hlen]
            rfl
          · rw [if_neg hlen, Out.isNofuel_push]
            cases hdc : ds_ids_dump_component (h.drop 1) doc
                (T ++ chars "/" ++ posixDirname (chars "./" ++ f) ++ chars "/"
                  ++ gnuBasename f) with
            | done e =>
              rw [Out.seq_done_left, Out.isNofuel_push]
              cases hcat : node_get_child_element r (some catalogS) with
              | none => rfl
              | some cat =>
                exact catalog_loop_no_fuel doc datastream rank hrank n ih r cat hcat hlt
                  (T ++ chars "/" ++ posixDirname (chars "./" ++ f)) cat.children
                  (fun u hu => hu)
            | ub e => rfl
            | nofuel e =>
              have h1 := dump_component_not_nofuel (h.drop 1) doc
                (T ++ chars "/" ++ posixDirname (chars "./" ++ f) ++ chars "/"
                  ++ gnuBasename f)
              rw [hdc] at h1
              exact absurd h1 (by simp [Out.isNofuel])

/-- C8 witness: the cycle side at depth budget 6, and the termination
side on the edge-free datastream `ds9` with the constant rank. -/
theorem c8_witness :
    (ds_ids_dump_component_ref_as 6 refA root8 ds8 (chars "out") (chars "fA.xml")).isNofuel
        = true
    ∧ (ds_ids_dump_component_ref_as 1 refR2 root9 ds9 (chars "out") (chars "c2.xml")).isNofuel
        = false := by
  constructor
  · exact c8_termination_and_cycle.1 6 (chars "out") (chars "fA.xml")
  · refine c8_termination_and_cycle.2 root9 ds9 (fun _ => 0) ?_ 1 refR2 (chars "out")
      (chars "c2.xml") (by decide)
    intro r r2 hedge
    obtain ⟨cat, hcat, u, hu, _, _, v, hv, hvl, hfind⟩ := hedge
    rw [show ds_ids_find_component_ref root9 ds9 (v.drop 1) = Except.ok none from rfl] at hfind
    exact absurd hfind (by simp)

theorem Out.push_nil (o : Out) : Out.push [] o = o := by
  cases o <;> simp [Out.push]

theorem dropWhile_append_of_all (p : Char → Bool) (l1 l2 : List Char)
    (h : ∀ a ∈ l1, p a = true) : (l1 ++ l2).dropWhile p = l2.dropWhile p := by
  induction l1 with
  | nil => rfl
  | cons x xs ih =>
    rw [List.cons_append, List.dropWhile_cons, if_pos (h x (List.mem_cons_self x xs))]
    exact ih (fun a ha => h a (List.mem_cons_of_mem x ha))

theorem takeWhile_append_of_all (p : Char → Bool) (l1 l2 : List Char)
    (h : ∀ a ∈ l1, p a = true) : (l1 ++ l2).takeWhile p = l1 ++ l2.takeWhile p := by
  induction l1 with
  | nil => rfl
  | cons x xs ih =>
    rw [List.cons_append, List.takeWhile_cons, if_pos (h x (List.mem_cons_self x xs)),
      ih (fun a ha => h a (List.mem_cons_of_mem x ha))]
    rfl

theorem rstripSlash_concat_ne (a : List Char) (c : Char) (hc : c ≠ '/') :
    rstripSlash (a ++ [c]) = a ++ [c] := by
  unfold rstripSlash
  rw [List.reverse_append, List.reverse_singleton, List.singleton_append,
    List.dropWhile_cons, if_neg (by simpa using hc)]
  simp

theorem rstripSlash_append_slash (a : List Char) : rstripSlash (a ++ ['/']) = rstripSlash a := by
  unfold rstripSlash
  rw [List.reverse_append, List.reverse_singleton, List.singleton_append,
    List.dropWhile_cons, if_pos (by simp)]

theorem rstripSlash_of_last_ne (x n : List Char) (hne : n ≠ []) (hsf : '/' ∉ n) :
    rstripSlash (x ++ n) = x ++ n := by
  obtain rfl | ⟨n2, c, rfl⟩ := n.eq_nil_or_concat
  · exact absurd rfl hne
  · rw [List.concat_eq_append] at hsf ⊢
    have hc : c ≠ '/' := fun hcc =>
      hsf (hcc ▸ List.mem_append_right n2 (List.mem_singleton_self c))
    rw [← List.append_assoc]
    exact rstripSlash_concat_ne (x ++ n2) c hc

theorem gnuBasename_slashFree (n : List Char) (hsf : '/' ∉ n) : gnuBasename n = n := by
  unfold gnuBasename
  have hall : ∀ a ∈ n.reverse, (a != '/') = true := by
    intro a ha
    have hm : a ∈ n := List.mem_reverse.mp ha
    have hne : a ≠ '/' := fun he => hsf (he ▸ hm)
    simpa using hne
  rw [List.takeWhile_eq_self_iff.mpr hall, List.reverse_reverse]

theorem gnuBasename_dir (da db : List Char) (hdb : '/' ∉ db) :
    gnuBasename (da ++ '/' :: db) = db := by
  unfold gnuBasename
  have hall : ∀ a ∈ db.reverse, (a != '/') = true := by
    intro a ha
    have hm : a ∈ db := List.mem_reverse.mp ha
    have hne : a ≠ '/' := fun he => hdb (he ▸ hm)
    simpa using hne
  rw [show da ++ '/' :: db = da ++ ['/'] ++ db by simp, List.reverse_append,
    List.reverse_append]
  rw [takeWhile_append_of_all _ db.reverse _ hall]
  rw [List.reverse_singleton, List.singleton_append, List.takeWhile_cons, if_neg (by simp)]
  simp

theorem posixDirname_bare (n : List Char) (hne : n ≠ []) (hsf : '/' ∉ n) :
    posixDirname (chars "./" ++ n) = chars "." := by
  have hq : rstripSlash (chars "./" ++ n) = chars "./" ++ n :=
    rstripSlash_of_last_ne (chars "./") n hne hsf
  have hall : ∀ a ∈ n.reverse, (a != '/') = true := by
    intro a ha
    have hm : a ∈ n := List.mem_reverse.mp ha
    have hne2 : a ≠ '/' := fun he => hsf (he ▸ hm)
    simpa using hne2
  have hrev : (chars "./" ++ n).reverse = n.reverse ++ ['/', '.'] := by
    simp [chars]
  have hdrop : ((chars "./" ++ n).reverse.dropWhile (fun c => c != '/')) = ['/', '.'] := by
    rw [hrev, dropWhile_append_of_all _ _ _ hall]
    rfl
  unfold posixDirname
  simp only [hq, hdrop]
  rfl

theorem posixDirname_nested (da db : List Char) (hda : da ≠ []) (hsa : '/' ∉ da)
    (hdb : db ≠ []) (hsb : '/' ∉ db) :
    posixDirname (chars "./" ++ (da ++ '/' :: db)) = chars "./" ++ da := by
  have hq : rstripSlash (chars "./" ++ (da ++ '/' :: db)) = chars "./" ++ (da ++ '/' :: db) := by
    have h2 := rstripSlash_of_last_ne (chars "./" ++ da ++ ['/']) db hdb hsb
    simpa [List.append_assoc] using h2
  have hall : ∀ a ∈ db.reverse, (a != '/') = true := by
    intro a ha
    have hm : a ∈ db := List.mem_reverse.mp ha
    have hne2 : a ≠ '/' := fun he => hsb (he ▸ hm)
    simpa using hne2
  have hrev : (chars "./" ++ (da ++ '/' :: db)).reverse
      = db.reverse ++ ('/' :: (da.reverse ++ ['/', '.'])) := by
    simp [chars]
  have hdrop : ((chars "./" ++ (da ++ '/' :: db)).reverse.dropWhile (fun c => c != '/'))
      = '/' :: (da.reverse ++ ['/', '.']) := by
    rw [hrev, dropWhile_append_of_all _ _ _ hall, List.dropWhile_cons, if_neg (by simp)]
  have hr : rstripSlash (('/' :: (da.reverse ++ ['/', '.'])).reverse) = chars "./" ++ da := by
    have hx : ('/' :: (da.reverse ++ ['/', '.'])).reverse = (['.', '/'] ++ da) ++ ['/'] := by
      simp
    rw [hx, rstripSlash_append_slash, rstripSlash_of_last_ne ['.', '/'] da hda hsa]
    rfl
  unfold posixDirname
  simp only [hq, hdrop, hr]
  rfl

theorem splitSlash_ne_nil (l : List Char) : splitSlash l ≠ [] := by
  induction l with
  | nil => simp [splitSlash]
  | cons c cs ih =>
    by_cases hc : c = '/'
    · simp [splitSlash, hc]
    · cases hsp : splitSlash cs with
      | nil => simp [splitSlash, hc, hsp]
      | cons s ss => simp [splitSlash, hc, hsp]

theorem splitSlash_append (a b : List Char) :
    splitSlash (a ++ '/' :: b) = splitSlash a ++ splitSlash b := by
  induction a with
  | nil => simp [splitSlash]
  | cons c cs ih =>
    by_cases hc : c = '/'
    · subst hc
      rw [List.cons_append, splitSlash, if_pos rfl, ih]
      rw [splitSlash, if_pos rfl]
      rfl
    · obtain ⟨s, ss, hs⟩ := List.exists_cons_of_ne_nil (splitSlash_ne_nil cs)
      rw [List.cons_append, splitSlash, if_neg hc, ih, hs]
      rw [splitSlash, if_neg hc, hs]
      rfl

theorem normPath_append (a b : List Char) :
    normPath (a ++ chars "/" ++ b) = normPath a ++ normPath b := by
  rw [show a ++ chars "/" ++ b = a ++ '/' :: b by simp [chars]]
  simp [normPath, splitSlash_append, List.filter_append]

theorem splitSlash_slashFree (s : List Char) (h : '/' ∉ s) : splitSlash s = [s] := by
  induction s with
  | nil => rfl
  | cons c cs ih =>
    have hc : c ≠ '/' := fun hh => h (hh ▸ List.mem_cons_self c cs)
    have hcs : '/' ∉ cs := fun hm => h (List.mem_cons_of_mem _ hm)
    rw [splitSlash, if_neg hc, ih hcs]

theorem normPath_single (s : List Char) (h1 : '/' ∉ s) (h2 : s ≠ []) (h3 : s ≠ ['.']) :
    normPath s = [s] := by
  simp [normPath, splitSlash_slashFree s h1, List.filter_cons, h2, h3]

theorem normPath_dotslash (b : List Char) : normPath (chars "./" ++ b) = normPath b := by
  rw [show chars "./" ++ b = (chars "." ++ chars "/" ++ b) by simp [chars], normPath_append]
  rfl

theorem catalogLoop_append (dump : XNode → List Char → Out) (doc datastream : XNode)
    (l1 l2 : List XNode) :
    ds_ids_catalog_loop dump doc datastream (l1 ++ l2)
      = Out.seq (ds_ids_catalog_loop dump doc datastream l1)
          (ds_ids_catalog_loop dump doc datastream l2) := by
  induction l1 with
  | nil =>
    rw [List.nil_append, ds_ids_catalog_loop, Out.seq_done_left, Out.push_nil]
  | cons x rest ih =>
    cases x with
    | text s =>
      rw [List.cons_append, ds_ids_catalog_loop, ds_ids_catalog_loop]
      exact ih
    | elem nm a ch =>
      by_cases hnm : nm = uriA
      · subst hnm
        rw [List.cons_append, ds_ids_catalog_loop, ds_ids_catalog_loop, if_pos rfl, if_pos rfl]
        cases hname : xmlGetProp (XNode.elem uriA a ch) nameA with
        | none =>
          dsimp only
          rw [ih, Out.seq_push_left]
        | some nme =>
          dsimp only
          cases huri : xmlGetProp (XNode.elem uriA a ch) uriA with
          | none =>
            dsimp only
            rw [ih, Out.seq_push_left]
          | some v =>
            dsimp only
            by_cases hvl : v.length < 2
            · rw [if_pos hvl, if_pos hvl, ih, Out.seq_push_left]
            · rw [if_neg hvl, if_neg hvl]
              cases hfind : ds_ids_find_component_ref doc datastream (v.drop 1) with
              | error e => rfl
              | ok o =>
                cases o with
                | none =>
                  dsimp only
                  rw [ih, Out.seq_push_left]
                | some r2 =>
                  dsimp only
                  rw [ih, Out.seq_assoc]
      · rw [List.cons_append, ds_ids_catalog_loop, ds_ids_catalog_loop, if_neg hnm, if_neg hnm]
        exact ih

theorem evWrites_singleton_write (p : List Char) (x : XNode) :
    evWrites [Ev.write p x] = [(p, x)] := rfl

theorem dump_component_done (cid : List Char) (doc : XNode) (fn : List Char)
    (h : findCompAux doc.children cid ≠ Except.error ()) :
    ∃ e, ds_ids_dump_component cid doc fn = Out.done e := by
  cases hf : findCompAux doc.children cid with
  | error u =>
    cases u
    exact absurd hf h
  | ok o =>
    cases o with
    | none =>
      exact ⟨[Ev.err (errMsgCompNotFound cid)], by simp only [ds_ids_dump_component, hf]⟩
    | some c =>
      cases hg : node_get_child_element c none with
      | none =>
        exact ⟨[Ev.err (errMsgNoContents cid)], by simp only [ds_ids_dump_component, hf, hg]⟩
      | some inner =>
        exact ⟨[Ev.write fn inner], by simp only [ds_ids_dump_component, hf, hg]⟩

theorem dump_cref_as_good (fuel : Nat) (doc datastream r : XNode) (td fn : List Char)
    (hg : goodRef doc r = true) :
    ∃ pre2, ds_ids_dump_component_ref_as (fuel + 1) r doc datastream td fn
        = Out.done (pre2 ++ [Ev.write (td ++ chars "/" ++ posixDirname (chars "./" ++ fn)
            ++ chars "/" ++ gnuBasename fn) (refPayload doc r)])
      ∧ evWrites pre2 = [] := by
  unfold goodRef goodRefOrig at hg
  cases hid : xmlGetProp r idA with
  | none => simp [hid] at hg
  | some iv =>
  cases hh : xmlGetProp r hrefA with
  | none => simp [hid, hh] at hg
  | some h =>
  simp only [hid, hh] at hg
  cases hfc : findCompAux doc.children (h.drop 1) with
  | error u => rw [hfc] at hg; simp at hg
  | ok o =>
  cases o with
  | none => rw [hfc] at hg; simp at hg
  | some c =>
  rw [hfc] at hg
  simp only [Option.isSome_some, Bool.true_and, Bool.and_eq_true, decide_eq_true_eq,
    Option.isSome_iff_exists, Option.isNone_iff_eq_none] at hg
  obtain ⟨⟨hlen, p, hp⟩, hcat⟩ := hg
  have hlt : ¬ (h.length < 2) := by omega
  have hpay : refPayload doc r = p := by
    simp only [refPayload, hh, hfc, hp]
  refine ⟨mkdir_p (td ++ chars "/" ++ posixDirname (chars "./" ++ fn)), ?_, evWrites_mkdir_p _⟩
  simp only [ds_ids_dump_component_ref_as, hid, hh, if_neg hlt, hcat,
    dump_component_good doc (h.drop 1) _ c p hfc hp, hpay]
  rfl

theorem normPath_c5_shape (T da n : List Char) (hda1 : da ≠ []) (hda2 : '/' ∉ da)
    (hda3 : da ≠ ['.']) (hn1 : n ≠ []) (hn2 : '/' ∉ n) (hn3 : n ≠ ['.']) :
    normPath (T ++ chars "/" ++ (chars "./" ++ da) ++ chars "/" ++ chars "." ++ chars "/" ++ n)
      = normPath T ++ [da, n] := by
  have h1 : T ++ chars "/" ++ (chars "./" ++ da) ++ chars "/" ++ chars "." ++ chars "/" ++ n
      = T ++ chars "/" ++ (chars "./" ++ (da ++ chars "/" ++ (chars "./" ++ n))) := by
    simp [chars, List.append_assoc]
  rw [h1, normPath_append, normPath_dotslash, normPath_append, normPath_dotslash]
  rw [normPath_single da hda2 hda1 hda3, normPath_single n hn2 hn1 hn3]
  rfl

/-- C5: for a component-ref `r1` dumped at destination `da/db` under
target directory `T`, a catalog entry of `r1` carrying name `n` whose
`uri` resolves to the claim-shaped component-ref `r2` produces `r2`'s
file at `da/n` relative to `T` (path compared after `.`-segment
normalization) — rooted at the directory of `r1`'s own file, and not
directly under `T`.  The entry may sit anywhere in the catalog whose
earlier entries process without dumping (`hpre`). -/
theorem c5_catalog_nested_path
    (fuel : Nat) (doc datastream r1 cat u r2 : XNode)
    (T da db n uv : List Char) (pre post : List XNode)
    (hid1 : (xmlGetProp r1 idA).isSome = true)
    (hh1 : ∃ h1, xmlGetProp r1 hrefA = some h1 ∧ 2 ≤ h1.length
      ∧ findCompAux doc.children (h1.drop 1) ≠ Except.error ())
    (hcat : node_get_child_element r1 (some catalogS) = some cat)
    (hchildren : cat.children = pre ++ u :: post)
    (hpre : ∃ evs, ds_ids_catalog_loop
        (fun rr nm2 => ds_ids_dump_component_ref_as (fuel + 1) rr doc datastream
          (T ++ chars "/" ++ posixDirname (chars "./" ++ (da ++ '/' :: db))) nm2)
        doc datastream pre = Out.done evs)
    (hu : isElemNamed u uriA = true)
    (hun : xmlGetProp u nameA = some n)
    (huv : xmlGetProp u uriA = some uv)
    (hlenv : 2 ≤ uv.length)
    (hfind : ds_ids_find_component_ref doc datastream (uv.drop 1) = Except.ok (some r2))
    (hr2 : goodRef doc r2 = true)
    (hda1 : da ≠ []) (hda2 : '/' ∉ da) (hda3 : da ≠ ['.'])
    (hdb1 : db ≠ []) (hdb2 : '/' ∉ db)
    (hn1 : n ≠ []) (hn2 : '/' ∉ n) (hn3 : n ≠ ['.']) :
    (∃ w ∈ writesOf (ds_ids_dump_component_ref_as (fuel + 2) r1 doc datastream T
        (da ++ '/' :: db)),
      normPath w.1 = normPath T ++ [da, n] ∧ w.2 = refPayload doc r2)
    ∧ normPath T ++ [da, n] ≠ normPath T ++ [n] := by
  obtain ⟨h1, hh1some, hh1len, hh1find⟩ := hh1
  obtain ⟨iv, hiv⟩ := Option.isSome_iff_exists.mp hid1
  have hlt1 : ¬ (h1.length < 2) := by omega
  obtain ⟨e1, he1⟩ := dump_component_done (h1.drop 1) doc
    (T ++ chars "/" ++ posixDirname (chars "./" ++ (da ++ '/' :: db)) ++ chars "/"
      ++ gnuBasename (da ++ '/' :: db)) hh1find
  have hstep : ds_ids_dump_component_ref_as (fuel + 2) r1 doc datastream T (da ++ '/' :: db)
      = Out.push (mkdir_p (T ++ chars "/" ++ posixDirname (chars "./" ++ (da ++ '/' :: db))))
          (Out.seq (Out.done e1)
            (ds_ids_catalog_loop
              (fun rr nm2 => ds_ids_dump_component_ref_as (fuel + 1) rr doc datastream
                (T ++ chars "/" ++ posixDirname (chars "./" ++ (da ++ '/' :: db))) nm2)
              doc datastream cat.children)) := by
    simp only [ds_ids_dump_component_ref_as, hiv, hh1some, if_neg hlt1, hcat, he1]
  obtain ⟨evs0, hevs0⟩ := hpre
  obtain ⟨pre2, hr2eq, hpre2⟩ := dump_cref_as_good fuel doc datastream r2
    (T ++ chars "/" ++ posixDirname (chars "./" ++ (da ++ '/' :: db))) n hr2
  obtain ⟨a2, ch2, rfl⟩ : ∃ a2 ch2, u = XNode.elem uriA a2 ch2 := by
    cases u with
    | text s => simp [isElemNamed] at hu
    | elem nm a2 ch2 =>
      have hnm : nm = uriA := by simpa [isElemNamed] using hu
      exact ⟨a2, ch2, by rw [hnm]⟩
  have hlt2 : ¬ (uv.length < 2) := by omega
  have hloop_u : ds_ids_catalog_loop
      (fun rr nm2 => ds_ids_dump_component_ref_as (fuel + 1) rr doc datastream
        (T ++ chars "/" ++ posixDirname (chars "./" ++ (da ++ '/' :: db))) nm2)
      doc datastream (XNode.elem uriA a2 ch2 :: post)
      = Out.seq (ds_ids_dump_component_ref_as (fuel + 1) r2 doc datastream
          (T ++ chars "/" ++ posixDirname (chars "./" ++ (da ++ '/' :: db))) n)
          (ds_ids_catalog_loop
            (fun rr nm2 => ds_ids_dump_component_ref_as (fuel + 1) rr doc datastream
              (T ++ chars "/" ++ posixDirname (chars "./" ++ (da ++ '/' :: db))) nm2)
            doc datastream post) := by
    simp only [ds_ids_catalog_loop, if_pos rfl, hun, huv, if_neg hlt2, hfind]
    simp
  rw [hchildren, catalogLoop_append, hevs0, hloop_u, hr2eq] at hstep
  have hpath : normPath (T ++ chars "/" ++ posixDirname (chars "./" ++ (da ++ '/' :: db))
        ++ chars "/" ++ posixDirname (chars "./" ++ n) ++ chars "/" ++ gnuBasename n)
      = normPath T ++ [da, n] := by
    rw [posixDirname_nested da db hda1 hda2 hdb1 hdb2, posixDirname_bare n hn1 hn2,
      gnuBasename_slashFree n hn2]
    exact normPath_c5_shape T da n hda1 hda2 hda3 hn1 hn2 hn3
  have hne : normPath T ++ [da, n] ≠ normPath T ++ [n] := by
    intro hcontra
    have hlen := congrArg List.length hcontra
    simp at hlen
  refine ⟨⟨(T ++ chars "/" ++ posixDirname (chars "./" ++ (da ++ '/' :: db))
      ++ chars "/" ++ posixDirname (chars "./" ++ n) ++ chars "/" ++ gnuBasename n,
      refPayload doc r2), ?_, hpath, rfl⟩, hne⟩
  rw [hstep]
  simp only [Out.seq_done_left, Out.push_push, writesOf_push, evWrites_append,
    evWrites_mkdir_p, evWrites_singleton_write, hpre2, List.nil_append, List.append_assoc,
    List.mem_append, List.mem_singleton]
  simp

/-- C5 witness: the statement at the concrete C5 document — ref `Q1`
dumped at `a/b.xml` under `out`, its single catalog entry named `n.xml`
resolving to ref `Q2`. -/
theorem c5_witness :
    (∃ w ∈ writesOf (ds_ids_dump_component_ref_as 3 refQ1 rootC5 dsC5 (chars "out")
        (chars "a" ++ '/' :: chars "b.xml")),
      normPath w.1 = normPath (chars "out") ++ [chars "a", chars "n.xml"]
      ∧ w.2 = refPayload rootC5 refQ2)
    ∧ normPath (chars "out") ++ [chars "a", chars "n.xml"]
        ≠ normPath (chars "out") ++ [chars "n.xml"] :=
  c5_catalog_nested_path 1 rootC5 dsC5 refQ1
    (XNode.elem catalogS [] [XNode.elem uriA [(nameA, chars "n.xml"), (uriA, chars "#Q2")] []])
    (XNode.elem uriA [(nameA, chars "n.xml"), (uriA, chars "#Q2")] [])
    refQ2 (chars "out") (chars "a") (chars "b.xml") (chars "n.xml") (chars "#Q2") [] []
    rfl
    ⟨chars "#c1", rfl, by decide, by
      have h : findCompAux rootC5.children ((chars "#c1").drop 1) = Except.ok (some comp1) := rfl
      rw [h]
      simp⟩
    rfl rfl ⟨[], rfl⟩ rfl rfl rfl (by decide) rfl rfl
    (by decide) (by decide) (by decide) (by decide) (by decide)
    (by decide) (by decide) (by decide)
